import Mathlib

/-!
Shallow embedding of the EvidenceChain ledger
(src/contracts/EvidenceChain.sol, with the duplicate-upload check of
src/backend/routes/evidence.js), together with proofs of its
claims of the specification.

Modelling conventions:
* `address` is modelled as `Nat` (`0` plays the role of `address(0)`).
* `bytes32` values that occur in the contract are either the zero word
  or a `keccak256` digest of `abi.encodePacked(fileHash, msg.sender,
  block.timestamp, block.number)`.  The digest is modelled as a free
  constructor `Bytes32.keccak`, i.e. keccak256 is idealised as an
  injective function whose image avoids the zero word (the standard
  collision-free idealisation of a cryptographic hash).
* Solidity storage mappings become total functions with the Solidity
  default value; `require` failures revert, so every operation returns
  an `Except` result together with the (possibly unchanged) state, and
  the failure branches return the input state untouched, exactly as the
  source places every `require` before every write.
* `msg.sender`, `block.timestamp` and `block.number` are explicit
  arguments of each operation.
-/

namespace EvidenceChain

/-- Ethereum address, as an abstract numeric identifier. -/
abbrev Addr := Nat

/-- The `bytes32` values the contract manipulates: the zero word, or the
keccak256 digest of `(fileHash, msg.sender, block.timestamp, block.number)`
computed in `addEvidence` (idealised as a free constructor). -/
inductive Bytes32 where
  | zero : Bytes32
  | keccak (fileHash : String) (sender : Addr) (timestamp : Nat) (blockNumber : Nat) : Bytes32
  deriving DecidableEq, Repr

/-- Mirror of the Solidity enum EvidenceStatus with values Active,
UnderReview, Archived, Disputed. -/
inductive EvidenceStatus where
  | Active : EvidenceStatus
  | UnderReview : EvidenceStatus
  | Archived : EvidenceStatus
  | Disputed : EvidenceStatus
  deriving DecidableEq, Repr

/-- Mirror of struct Evidence of EvidenceChain.sol. -/
structure Evidence where
  fileHash : String
  ipfsHash : String
  fileName : String
  fileType : String
  fileSize : Nat
  description : String
  caseId : String
  timestamp : Nat
  uploader : Addr
  isSealed : Bool
  status : EvidenceStatus
  deriving DecidableEq, Repr

/-- The Solidity default value of `Evidence` (all fields zero-initialised;
status 0 is `Active`). -/
def Evidence.zeroed : Evidence :=
  { fileHash := "", ipfsHash := "", fileName := "", fileType := ""
    fileSize := 0, description := "", caseId := "", timestamp := 0
    uploader := 0, isSealed := false, status := .Active }

/-- Mirror of struct AuditLog of EvidenceChain.sol. -/
structure AuditLog where
  actor : Addr
  action : String
  timestamp : Nat
  notes : String
  deriving DecidableEq, Repr

/-- Pointwise update of a total map, modelling assignment to a Solidity
storage mapping slot. -/
def upd {α β : Type} [DecidableEq α] (f : α → β) (a : α) (b : β) : α → β :=
  fun x => if x = a then b else f x

theorem upd_self {α β : Type} [DecidableEq α] (f : α → β) (a : α) (b : β) :
    upd f a b a = b := by simp [upd]

theorem upd_other {α β : Type} [DecidableEq α] (f : α → β) (a : α) (b : β)
    (x : α) (h : x ≠ a) : upd f a b x = f x := by simp [upd, h]

/-- Storage of the contract. -/
structure EState where
  evidenceStore : Bytes32 → Evidence
  auditLogs : Bytes32 → List AuditLog
  uploaderEvidence : Addr → List Bytes32
  hashToId : String → Bytes32
  allEvidenceIds : List Bytes32
  owner : Addr
  totalEvidence : Nat

/-- The state right after the constructor runs: all mappings at their
Solidity defaults, `owner = msg.sender`. -/
def initState (sender : Addr) : EState :=
  { evidenceStore := fun _ => Evidence.zeroed
    auditLogs := fun _ => []
    uploaderEvidence := fun _ => []
    hashToId := fun _ => Bytes32.zero
    allEvidenceIds := []
    owner := sender
    totalEvidence := 0 }

/-- Mirrors addEvidence: registers a new evidence record.  Mirrors the source
line by line: the three `require`s, the keccak-derived id, the record
creation, the index updates, the counter increment and the initial audit
entry. -/
def addEvidence (s : EState) (sender : Addr) (ts bn : Nat)
    (fileHash ipfsHash fileName fileType : String) (fileSize : Nat)
    (description caseId : String) : Except String Bytes32 × EState :=
  if fileHash.length = 0 then (.error "File hash required", s)
  else if fileName.length = 0 then (.error "File name required", s)
  else if s.hashToId fileHash ≠ Bytes32.zero then
    (.error "Evidence with this hash already exists", s)
  else
    let evidenceId := Bytes32.keccak fileHash sender ts bn
    let e : Evidence :=
      { fileHash := fileHash, ipfsHash := ipfsHash, fileName := fileName
        fileType := fileType, fileSize := fileSize, description := description
        caseId := caseId, timestamp := ts, uploader := sender
        isSealed := false, status := .Active }
    (.ok evidenceId,
      { evidenceStore := upd s.evidenceStore evidenceId e
        auditLogs := upd s.auditLogs evidenceId
          (s.auditLogs evidenceId ++
            [{ actor := sender, action := "EVIDENCE_ADDED", timestamp := ts
               notes := "Initial upload" }])
        uploaderEvidence := upd s.uploaderEvidence sender
          (s.uploaderEvidence sender ++ [evidenceId])
        hashToId := upd s.hashToId fileHash evidenceId
        allEvidenceIds := s.allEvidenceIds ++ [evidenceId]
        owner := s.owner
        totalEvidence := s.totalEvidence + 1 })

/-- Mirrors sealEvidence: the `evidenceExists` and `notSealed` modifiers, then the
authorization `require`, then the seal write and the audit entry. -/
def sealEvidence (s : EState) (sender : Addr) (ts : Nat) (evidenceId : Bytes32) :
    Except String Unit × EState :=
  if (s.evidenceStore evidenceId).fileHash.length = 0 then
    (.error "Evidence not found", s)
  else if (s.evidenceStore evidenceId).isSealed then
    (.error "Evidence is sealed", s)
  else if sender = (s.evidenceStore evidenceId).uploader ∨ sender = s.owner then
    (.ok (),
      { s with
        evidenceStore := upd s.evidenceStore evidenceId
          { s.evidenceStore evidenceId with isSealed := true }
        auditLogs := upd s.auditLogs evidenceId
          (s.auditLogs evidenceId ++
            [{ actor := sender, action := "EVIDENCE_SEALED", timestamp := ts
               notes := "Evidence sealed for integrity" }]) })
  else (.error "Not authorized to seal", s)

/-- Mirrors updateStatus: the `evidenceExists` and `notSealed` modifiers, the
authorization `require`, then the status overwrite and the audit entry. -/
def updateStatus (s : EState) (sender : Addr) (ts : Nat) (evidenceId : Bytes32)
    (newStatus : EvidenceStatus) (notes : String) : Except String Unit × EState :=
  if (s.evidenceStore evidenceId).fileHash.length = 0 then
    (.error "Evidence not found", s)
  else if (s.evidenceStore evidenceId).isSealed then
    (.error "Evidence is sealed", s)
  else if sender = (s.evidenceStore evidenceId).uploader ∨ sender = s.owner then
    (.ok (),
      { s with
        evidenceStore := upd s.evidenceStore evidenceId
          { s.evidenceStore evidenceId with status := newStatus }
        auditLogs := upd s.auditLogs evidenceId
          (s.auditLogs evidenceId ++
            [{ actor := sender, action := "STATUS_UPDATED", timestamp := ts
               notes := notes }]) })
  else (.error "Not authorized", s)

/-- Mirrors logAudit: only the `evidenceExists` modifier guards it; no sealed
check and no authorization check. -/
def logAudit (s : EState) (sender : Addr) (ts : Nat) (evidenceId : Bytes32)
    (action notes : String) : Except String Unit × EState :=
  if (s.evidenceStore evidenceId).fileHash.length = 0 then
    (.error "Evidence not found", s)
  else
    (.ok (),
      { s with
        auditLogs := upd s.auditLogs evidenceId
          (s.auditLogs evidenceId ++
            [{ actor := sender, action := action, timestamp := ts
               notes := notes }]) })

/-- Return shape of `verifyEvidence`. -/
structure VerifyResult where
  isValid : Bool
  evidenceId : Bytes32
  uploader : Addr
  timestamp : Nat
  deriving DecidableEq, Repr

/-- Mirrors verifyEvidence: a Solidity view function — it takes the state and returns
only a result, so it cannot mutate anything by construction. -/
def verifyEvidence (s : EState) (fileHash : String) : VerifyResult :=
  let evidenceId := s.hashToId fileHash
  if evidenceId = Bytes32.zero then
    { isValid := false, evidenceId := Bytes32.zero, uploader := 0, timestamp := 0 }
  else
    { isValid := true, evidenceId := evidenceId
      uploader := (s.evidenceStore evidenceId).uploader
      timestamp := (s.evidenceStore evidenceId).timestamp }

/-- Mirrors getEvidence: guarded by `evidenceExists`. -/
def getEvidence (s : EState) (evidenceId : Bytes32) : Except String Evidence :=
  if (s.evidenceStore evidenceId).fileHash.length = 0 then
    .error "Evidence not found"
  else .ok (s.evidenceStore evidenceId)

/-- Mirrors getEvidenceByHash. -/
def getEvidenceByHash (s : EState) (fileHash : String) : Except String Evidence :=
  if s.hashToId fileHash = Bytes32.zero then .error "Evidence not found"
  else .ok (s.evidenceStore (s.hashToId fileHash))

/-- Outcome of the backend upload route (`POST /api/evidence/upload` in
src/backend/routes/evidence.js): a 201 with the fresh id, a 409 carrying
the id of the already-registered evidence, or a 500. -/
inductive UploadOutcome where
  | created (evidenceId : Bytes32) : UploadOutcome
  | duplicate (evidenceId : Bytes32) : UploadOutcome
  | failed (msg : String) : UploadOutcome
  deriving DecidableEq, Repr

/-- Chain interaction of the upload route: it first calls `verifyEvidence`
on the hash of the file and answers 409 with the pre-existing id on a
duplicate; otherwise it calls `addEvidence`. -/
def uploadEvidence (s : EState) (sender : Addr) (ts bn : Nat)
    (fileHash ipfsHash fileName fileType : String) (fileSize : Nat)
    (description caseId : String) : UploadOutcome × EState :=
  let v := verifyEvidence s fileHash
  if v.isValid then (.duplicate v.evidenceId, s)
  else
    match addEvidence s sender ts bn fileHash ipfsHash fileName fileType
        fileSize description caseId with
    | (.ok id, s1) => (.created id, s1)
    | (.error msg, s1) => (.failed msg, s1)

/-- One successful state-changing contract call. -/
inductive Step : EState → EState → Prop where
  | register (s s1 : EState) (sender : Addr) (ts bn : Nat)
      (fh ih fn ft : String) (sz : Nat) (d c : String) (id : Bytes32)
      (h : addEvidence s sender ts bn fh ih fn ft sz d c = (.ok id, s1)) :
      Step s s1
  | sealOp (s s1 : EState) (sender : Addr) (ts : Nat) (id : Bytes32)
      (h : sealEvidence s sender ts id = (.ok (), s1)) : Step s s1
  | statusOp (s s1 : EState) (sender : Addr) (ts : Nat) (id : Bytes32)
      (st : EvidenceStatus) (n : String)
      (h : updateStatus s sender ts id st n = (.ok (), s1)) : Step s s1
  | auditOp (s s1 : EState) (sender : Addr) (ts : Nat) (id : Bytes32)
      (a n : String) (h : logAudit s sender ts id a n = (.ok (), s1)) :
      Step s s1

/-- Zero or more successful contract calls. -/
def Steps : EState → EState → Prop := Relation.ReflTransGen Step

/-- States reachable from a freshly deployed contract owned by `o`.
Failed calls revert and leave the state unchanged, so only successful
calls need to appear in the sequence. -/
def Reachable (o : Addr) (s : EState) : Prop := Steps (initState o) s

theorem length_eq_zero_iff (t : String) : t.length = 0 ↔ t = "" := by
  cases t with
  | mk d =>
    simp only [String.length]
    constructor
    · intro h
      cases d with
      | nil => rfl
      | cons a l => simp at h
    · intro h
      have hd : d = [] := by
        have := congrArg String.data h
        simpa using this
      simp [hd]

/-- Inversion of a successful `addEvidence` call: the preconditions held
and the output state is the input state with exactly the writes of the
source applied. -/
theorem addEvidence_ok (s s1 : EState) (sender : Addr) (ts bn : Nat)
    (fh ih fn ft : String) (sz : Nat) (d c : String) (id : Bytes32)
    (h : addEvidence s sender ts bn fh ih fn ft sz d c = (.ok id, s1)) :
    fh ≠ "" ∧ fn ≠ "" ∧ s.hashToId fh = Bytes32.zero ∧
    id = Bytes32.keccak fh sender ts bn ∧
    s1.evidenceStore = upd s.evidenceStore id
      { fileHash := fh, ipfsHash := ih, fileName := fn, fileType := ft
        fileSize := sz, description := d, caseId := c, timestamp := ts
        uploader := sender, isSealed := false, status := .Active } ∧
    s1.auditLogs = upd s.auditLogs id
      (s.auditLogs id ++
        [{ actor := sender, action := "EVIDENCE_ADDED", timestamp := ts
           notes := "Initial upload" }]) ∧
    s1.uploaderEvidence = upd s.uploaderEvidence sender
      (s.uploaderEvidence sender ++ [id]) ∧
    s1.hashToId = upd s.hashToId fh id ∧
    s1.allEvidenceIds = s.allEvidenceIds ++ [id] ∧
    s1.owner = s.owner ∧
    s1.totalEvidence = s.totalEvidence + 1 := by
  unfold addEvidence at h
  split at h
  · simp at h
  · split at h
    · simp at h
    · split at h
      · simp at h
      · rename_i h1 h2 h3
        rw [not_not] at h3
        simp only [Prod.mk.injEq, Except.ok.injEq] at h
        obtain ⟨hid, hs1⟩ := h
        subst hid
        subst hs1
        refine ⟨?_, ?_, h3, rfl, rfl, rfl, rfl, rfl, rfl, rfl, rfl⟩
        · exact fun hc => h1 ((length_eq_zero_iff fh).mpr hc)
        · exact fun hc => h2 ((length_eq_zero_iff fn).mpr hc)

/-- Inversion of a successful `sealEvidence` call. -/
theorem sealEvidence_ok (s s1 : EState) (sender : Addr) (ts : Nat)
    (id : Bytes32) (h : sealEvidence s sender ts id = (.ok (), s1)) :
    (s.evidenceStore id).fileHash ≠ "" ∧
    (s.evidenceStore id).isSealed = false ∧
    (sender = (s.evidenceStore id).uploader ∨ sender = s.owner) ∧
    s1 = { s with
      evidenceStore := upd s.evidenceStore id
        { s.evidenceStore id with isSealed := true }
      auditLogs := upd s.auditLogs id
        (s.auditLogs id ++
          [{ actor := sender, action := "EVIDENCE_SEALED", timestamp := ts
             notes := "Evidence sealed for integrity" }]) } := by
  unfold sealEvidence at h
  split at h
  · simp at h
  · split at h
    · simp at h
    · split at h
      · rename_i h1 h2 h3
        simp only [Prod.mk.injEq] at h
        refine ⟨fun hc => h1 ((length_eq_zero_iff _).mpr hc),
          Bool.eq_false_iff.mpr h2, h3, h.2.symm⟩
      · simp at h

/-- Inversion of a successful `updateStatus` call. -/
theorem updateStatus_ok (s s1 : EState) (sender : Addr) (ts : Nat)
    (id : Bytes32) (st : EvidenceStatus) (n : String)
    (h : updateStatus s sender ts id st n = (.ok (), s1)) :
    (s.evidenceStore id).fileHash ≠ "" ∧
    (s.evidenceStore id).isSealed = false ∧
    (sender = (s.evidenceStore id).uploader ∨ sender = s.owner) ∧
    s1 = { s with
      evidenceStore := upd s.evidenceStore id
        { s.evidenceStore id with status := st }
      auditLogs := upd s.auditLogs id
        (s.auditLogs id ++
          [{ actor := sender, action := "STATUS_UPDATED", timestamp := ts
             notes := n }]) } := by
  unfold updateStatus at h
  split at h
  · simp at h
  · split at h
    · simp at h
    · split at h
      · rename_i h1 h2 h3
        simp only [Prod.mk.injEq] at h
        refine ⟨fun hc => h1 ((length_eq_zero_iff _).mpr hc),
          Bool.eq_false_iff.mpr h2, h3, h.2.symm⟩
      · simp at h

/-- Inversion of a successful `logAudit` call. -/
theorem logAudit_ok (s s1 : EState) (sender : Addr) (ts : Nat)
    (id : Bytes32) (a n : String)
    (h : logAudit s sender ts id a n = (.ok (), s1)) :
    (s.evidenceStore id).fileHash ≠ "" ∧
    s1 = { s with
      auditLogs := upd s.auditLogs id
        (s.auditLogs id ++
          [{ actor := sender, action := a, timestamp := ts, notes := n }]) } := by
  unfold logAudit at h
  split at h
  · simp at h
  · rename_i h1
    simp only [Prod.mk.injEq] at h
    exact ⟨fun hc => h1 ((length_eq_zero_iff _).mpr hc), h.2.symm⟩

/-- Structural invariants of the contract storage, established by the
constructor and preserved by every successful call. -/
structure Inv (s : EState) : Prop where
  hash_nonempty : ∀ f, s.hashToId f ≠ Bytes32.zero → f ≠ ""
  hash_points : ∀ f, s.hashToId f ≠ Bytes32.zero →
    (s.evidenceStore (s.hashToId f)).fileHash = f
  store_hash : ∀ id, (s.evidenceStore id).fileHash ≠ "" →
    s.hashToId ((s.evidenceStore id).fileHash) = id
  id_shape : ∀ fh a t b,
    (s.evidenceStore (Bytes32.keccak fh a t b)).fileHash ≠ "" →
    (s.evidenceStore (Bytes32.keccak fh a t b)).fileHash = fh
  sealed_nonempty : ∀ id, (s.evidenceStore id).isSealed = true →
    (s.evidenceStore id).fileHash ≠ ""
  audit_nonempty : ∀ id, s.auditLogs id ≠ [] →
    (s.evidenceStore id).fileHash ≠ ""
  zero_slot : (s.evidenceStore Bytes32.zero).fileHash = ""

/-- While a content hash is unregistered, the storage slot its future id
would occupy is still zeroed (its record has an empty file hash). -/
theorem fresh_slot (s : EState) (hInv : Inv s) (fh : String) (a : Addr)
    (t b : Nat) (hdup : s.hashToId fh = Bytes32.zero) :
    (s.evidenceStore (Bytes32.keccak fh a t b)).fileHash = "" := by
  by_contra hne
  have h1 := hInv.id_shape fh a t b hne
  have h2 := hInv.store_hash _ hne
  rw [h1, hdup] at h2
  exact Bytes32.noConfusion h2

/-- While a content hash is unregistered, the audit log of its future id
is empty. -/
theorem fresh_audit (s : EState) (hInv : Inv s) (fh : String) (a : Addr)
    (t b : Nat) (hdup : s.hashToId fh = Bytes32.zero) :
    s.auditLogs (Bytes32.keccak fh a t b) = [] := by
  by_contra hne
  exact absurd (fresh_slot s hInv fh a t b hdup) (hInv.audit_nonempty _ hne)

theorem Inv_init (o : Addr) : Inv (initState o) := by
  constructor <;> intros <;> simp_all [initState, Evidence.zeroed]

theorem upd_same_fun {α β : Type} [DecidableEq α] (f : α → β) (a : α) :
    upd f a (f a) = f := by
  funext x
  by_cases h : x = a <;> simp [upd, h]

/-- A successful `addEvidence` call preserves the storage invariants. -/
theorem Inv_register (s s1 : EState) (sender : Addr) (ts bn : Nat)
    (fh ih fn ft : String) (sz : Nat) (d c : String) (id : Bytes32)
    (h : addEvidence s sender ts bn fh ih fn ft sz d c = (.ok id, s1))
    (hInv : Inv s) : Inv s1 := by
  obtain ⟨hfh, hfn, hdup, hid, hstore, hlogs, hupl, hhash, hall, hown, htot⟩ :=
    addEvidence_ok s s1 sender ts bn fh ih fn ft sz d c id h
  subst hid
  constructor
  · intro f hf
    rw [hhash] at hf
    by_cases hffh : f = fh
    · subst hffh; exact hfh
    · rw [upd_other _ _ _ _ hffh] at hf
      exact hInv.hash_nonempty f hf
  · intro f hf
    rw [hhash] at hf ⊢
    rw [hstore]
    by_cases hffh : f = fh
    · subst hffh
      rw [upd_self, upd_self]
    · rw [upd_other _ _ _ _ hffh] at hf ⊢
      have hj := hInv.hash_points f hf
      by_cases hjK : s.hashToId f = Bytes32.keccak fh sender ts bn
      · exfalso
        rw [hjK] at hj
        rw [fresh_slot s hInv fh sender ts bn hdup] at hj
        exact hInv.hash_nonempty f hf hj.symm
      · rw [upd_other _ _ _ _ hjK]
        exact hj
  · intro j hj
    rw [hstore] at hj ⊢
    rw [hhash]
    by_cases hjK : j = Bytes32.keccak fh sender ts bn
    · subst hjK
      rw [upd_self]
      exact upd_self _ _ _
    · rw [upd_other _ _ _ _ hjK] at hj ⊢
      have hg := hInv.store_hash j hj
      by_cases hgfh : (s.evidenceStore j).fileHash = fh
      · exfalso
        rw [hgfh, hdup] at hg
        subst hg
        exact hj hInv.zero_slot
      · rw [upd_other _ _ _ _ hgfh]
        exact hg
  · intro fh1 a1 t1 b1 hne
    rw [hstore] at hne ⊢
    by_cases hK : Bytes32.keccak fh1 a1 t1 b1 = Bytes32.keccak fh sender ts bn
    · have hf1 : fh1 = fh := by
        injection hK
      rw [hK, upd_self]
      exact hf1.symm
    · rw [upd_other _ _ _ _ hK] at hne ⊢
      exact hInv.id_shape fh1 a1 t1 b1 hne
  · intro j hj
    rw [hstore] at hj ⊢
    by_cases hjK : j = Bytes32.keccak fh sender ts bn
    · subst hjK
      rw [upd_self]
      exact hfh
    · rw [upd_other _ _ _ _ hjK] at hj ⊢
      exact hInv.sealed_nonempty j hj
  · intro j hj
    rw [hlogs] at hj
    rw [hstore]
    by_cases hjK : j = Bytes32.keccak fh sender ts bn
    · subst hjK
      rw [upd_self]
      exact hfh
    · rw [upd_other _ _ _ _ hjK] at hj
      rw [upd_other _ _ _ _ hjK]
      exact hInv.audit_nonempty j hj
  · rw [hstore]
    rw [upd_other _ _ _ _ (fun hc => Bytes32.noConfusion hc)]
    exact hInv.zero_slot

/-- Common preservation argument for the calls that rewrite a single
existing record (or leave the store alone) and only append audit
entries. -/
theorem Inv_patch (s s1 : EState) (hInv : Inv s) (id : Bytes32)
    (e : Evidence) (hex : (s.evidenceStore id).fileHash ≠ "")
    (hfh : e.fileHash = (s.evidenceStore id).fileHash)
    (hstore : s1.evidenceStore = upd s.evidenceStore id e)
    (hhash : s1.hashToId = s.hashToId)
    (hlogs : ∀ j, s1.auditLogs j ≠ [] → s.auditLogs j ≠ [] ∨ j = id) :
    Inv s1 := by
  have hfile : ∀ j, (s1.evidenceStore j).fileHash = (s.evidenceStore j).fileHash := by
    intro j
    rw [hstore]
    by_cases hji : j = id
    · subst hji
      rw [upd_self]
      exact hfh
    · rw [upd_other _ _ _ _ hji]
  constructor
  · intro f hf
    rw [hhash] at hf
    exact hInv.hash_nonempty f hf
  · intro f hf
    rw [hhash] at hf ⊢
    rw [hfile]
    exact hInv.hash_points f hf
  · intro j hj
    rw [hfile] at hj
    rw [hhash, hfile]
    exact hInv.store_hash j hj
  · intro fh1 a1 t1 b1 hne
    rw [hfile] at hne ⊢
    exact hInv.id_shape fh1 a1 t1 b1 hne
  · intro j hj
    rw [hfile]
    rw [hstore] at hj
    by_cases hji : j = id
    · subst hji
      exact hex
    · rw [upd_other _ _ _ _ hji] at hj
      exact hInv.sealed_nonempty j hj
  · intro j hj
    rw [hfile]
    rcases hlogs j hj with hold | hji
    · exact hInv.audit_nonempty j hold
    · subst hji
      exact hex
  · rw [hfile]
    exact hInv.zero_slot

/-- A successful `sealEvidence` call preserves the storage invariants. -/
theorem Inv_seal (s s1 : EState) (sender : Addr) (ts : Nat) (id : Bytes32)
    (h : sealEvidence s sender ts id = (.ok (), s1)) (hInv : Inv s) :
    Inv s1 := by
  obtain ⟨hex, hns, hauth, hs1⟩ := sealEvidence_ok s s1 sender ts id h
  subst hs1
  refine Inv_patch s _ hInv id
    { s.evidenceStore id with isSealed := true } hex rfl rfl rfl ?_
  intro j hj
  by_cases hji : j = id
  · exact Or.inr hji
  · left
    simpa [upd_other _ _ _ _ hji] using hj

/-- A successful `updateStatus` call preserves the storage invariants. -/
theorem Inv_status (s s1 : EState) (sender : Addr) (ts : Nat) (id : Bytes32)
    (st : EvidenceStatus) (n : String)
    (h : updateStatus s sender ts id st n = (.ok (), s1)) (hInv : Inv s) :
    Inv s1 := by
  obtain ⟨hex, hns, hauth, hs1⟩ := updateStatus_ok s s1 sender ts id st n h
  subst hs1
  refine Inv_patch s _ hInv id
    { s.evidenceStore id with status := st } hex rfl rfl rfl ?_
  intro j hj
  by_cases hji : j = id
  · exact Or.inr hji
  · left
    simpa [upd_other _ _ _ _ hji] using hj

/-- A successful `logAudit` call preserves the storage invariants. -/
theorem Inv_audit (s s1 : EState) (sender : Addr) (ts : Nat) (id : Bytes32)
    (a n : String) (h : logAudit s sender ts id a n = (.ok (), s1))
    (hInv : Inv s) : Inv s1 := by
  obtain ⟨hex, hs1⟩ := logAudit_ok s s1 sender ts id a n h
  subst hs1
  refine Inv_patch s _ hInv id (s.evidenceStore id) hex rfl ?_ rfl ?_
  · exact (upd_same_fun _ _).symm
  · intro j hj
    by_cases hji : j = id
    · exact Or.inr hji
    · left
      simpa [upd_other _ _ _ _ hji] using hj

/-- Every successful call preserves the storage invariants. -/
theorem Inv_step (s s1 : EState) (hstep : Step s s1) (hInv : Inv s) :
    Inv s1 := by
  cases hstep with
  | register sender ts bn fh ih fn ft sz d c id h =>
      exact Inv_register s s1 sender ts bn fh ih fn ft sz d c id h hInv
  | sealOp sender ts id h => exact Inv_seal s s1 sender ts id h hInv
  | statusOp sender ts id st n h =>
      exact Inv_status s s1 sender ts id st n h hInv
  | auditOp sender ts id a n h => exact Inv_audit s s1 sender ts id a n h hInv

theorem Inv_steps (s s1 : EState) (hs : Steps s s1) (hInv : Inv s) :
    Inv s1 := by
  induction hs with
  | refl => exact hInv
  | tail h1 h2 ih => exact Inv_step _ _ h2 ih

/-- Every reachable state satisfies the storage invariants. -/
theorem Inv_reachable (o : Addr) (s : EState) (hs : Reachable o s) : Inv s :=
  Inv_steps _ _ hs (Inv_init o)

/-- No successful call changes any field of a sealed record. -/
theorem step_sealed_frozen (s s1 : EState) (hInv : Inv s) (id : Bytes32)
    (hs : (s.evidenceStore id).isSealed = true) (hstep : Step s s1) :
    s1.evidenceStore id = s.evidenceStore id := by
  cases hstep with
  | register sender ts bn fh ih fn ft sz d c j h =>
      obtain ⟨hfh, hfn, hdup, hid, hstore, _⟩ :=
        addEvidence_ok s s1 sender ts bn fh ih fn ft sz d c j h
      subst hid
      rw [hstore]
      by_cases hij : id = Bytes32.keccak fh sender ts bn
      · exfalso
        have hemp := fresh_slot s hInv fh sender ts bn hdup
        rw [← hij] at hemp
        exact hInv.sealed_nonempty id hs hemp
      · exact upd_other _ _ _ _ hij
  | sealOp sender ts j h =>
      obtain ⟨hex, hns, hauth, hs1⟩ := sealEvidence_ok s s1 sender ts j h
      subst hs1
      by_cases hij : id = j
      · subst hij
        rw [hns] at hs
        exact absurd hs (by simp)
      · exact upd_other _ _ _ _ hij
  | statusOp sender ts j st n h =>
      obtain ⟨hex, hns, hauth, hs1⟩ := updateStatus_ok s s1 sender ts j st n h
      subst hs1
      by_cases hij : id = j
      · subst hij
        rw [hns] at hs
        exact absurd hs (by simp)
      · exact upd_other _ _ _ _ hij
  | auditOp sender ts j a n h =>
      obtain ⟨hex, hs1⟩ := logAudit_ok s s1 sender ts j a n h
      subst hs1
      rfl

/-- No sequence of successful calls changes any field of a sealed
record. -/
theorem steps_sealed_frozen (s s1 : EState) (hInv : Inv s) (id : Bytes32)
    (hs : (s.evidenceStore id).isSealed = true) (hsteps : Steps s s1) :
    s1.evidenceStore id = s.evidenceStore id := by
  induction hsteps with
  | refl => rfl
  | tail h1 h2 ih =>
      have hInvb := Inv_steps _ _ h1 hInv
      have hb := hs
      rw [← ih] at hb
      rw [step_sealed_frozen _ _ hInvb id hb h2, ih]

/-- A successful call only ever appends to an audit log. -/
theorem step_audit_grow (s s1 : EState) (hstep : Step s s1) (id : Bytes32) :
    ∃ more, s1.auditLogs id = s.auditLogs id ++ more := by
  cases hstep with
  | register sender ts bn fh ih fn ft sz d c j h =>
      obtain ⟨_, _, _, hid, _, hlogs, _⟩ :=
        addEvidence_ok s s1 sender ts bn fh ih fn ft sz d c j h
      rw [hlogs]
      by_cases hij : id = j
      · subst hij
        rw [upd_self]
        exact ⟨_, rfl⟩
      · rw [upd_other _ _ _ _ hij]
        exact ⟨[], (List.append_nil _).symm⟩
  | sealOp sender ts j h =>
      obtain ⟨hex, hns, hauth, hs1⟩ := sealEvidence_ok s s1 sender ts j h
      subst hs1
      by_cases hij : id = j
      · subst hij
        exact ⟨[{ actor := sender, action := "EVIDENCE_SEALED", timestamp := ts
                  notes := "Evidence sealed for integrity" }], upd_self _ _ _⟩
      · exact ⟨[], by rw [List.append_nil]; exact upd_other _ _ _ _ hij⟩
  | statusOp sender ts j st n h =>
      obtain ⟨hex, hns, hauth, hs1⟩ := updateStatus_ok s s1 sender ts j st n h
      subst hs1
      by_cases hij : id = j
      · subst hij
        exact ⟨[{ actor := sender, action := "STATUS_UPDATED", timestamp := ts
                  notes := n }], upd_self _ _ _⟩
      · exact ⟨[], by rw [List.append_nil]; exact upd_other _ _ _ _ hij⟩
  | auditOp sender ts j a n h =>
      obtain ⟨hex, hs1⟩ := logAudit_ok s s1 sender ts j a n h
      subst hs1
      by_cases hij : id = j
      · subst hij
        exact ⟨[{ actor := sender, action := a, timestamp := ts, notes := n }],
          upd_self _ _ _⟩
      · exact ⟨[], by rw [List.append_nil]; exact upd_other _ _ _ _ hij⟩

/-- A sequence of successful calls only ever appends to an audit log. -/
theorem steps_audit_grow (s s1 : EState) (hsteps : Steps s s1) (id : Bytes32) :
    ∃ more, s1.auditLogs id = s.auditLogs id ++ more := by
  induction hsteps with
  | refl => exact ⟨[], (List.append_nil _).symm⟩
  | tail h1 h2 ih =>
      obtain ⟨m1, hm1⟩ := ih
      obtain ⟨m2, hm2⟩ := step_audit_grow _ _ h2 id
      exact ⟨m1 ++ m2, by rw [hm2, hm1, List.append_assoc]⟩

/-! Concrete run used to exercise the theorems: deploy as owner `7`,
register file hash `"h1"` from uploader `5`, seal it, then append a
custom audit note from a third party `9`. -/

def exS0 : EState := initState 7

def exId1 : Bytes32 := Bytes32.keccak "h1" 5 10 1

def exS1 : EState := (addEvidence exS0 5 10 1 "h1" "" "doc" "txt" 3 "" "c1").2

def exS2 : EState := (sealEvidence exS1 5 11 exId1).2

def exS3 : EState := (logAudit exS2 9 12 exId1 "NOTE" "reviewed").2

theorem exStep01 : Step exS0 exS1 :=
  Step.register exS0 exS1 5 10 1 "h1" "" "doc" "txt" 3 "" "c1" exId1 rfl

theorem exStep12 : Step exS1 exS2 :=
  Step.sealOp exS1 exS2 5 11 exId1 rfl

theorem exStep23 : Step exS2 exS3 :=
  Step.auditOp exS2 exS3 9 12 exId1 "NOTE" "reviewed" rfl

theorem exReach1 : Reachable 7 exS1 :=
  Relation.ReflTransGen.tail Relation.ReflTransGen.refl exStep01

theorem exReach2 : Reachable 7 exS2 :=
  Relation.ReflTransGen.tail exReach1 exStep12

/-- C1. In every reachable state, once the sealed flag of a record is
true it stays true and its status never changes under any further
sequence of successful operations (there is no unseal: the step relation
enumerates every mutating entry point), and every subsequent
`updateStatus` on that id fails with the sealed-rejection error and
returns the state unchanged. -/
theorem c1_sealed_permanent (o : Addr) (s : EState) (hr : Reachable o s)
    (id : Bytes32) (hs : (s.evidenceStore id).isSealed = true)
    (s2 : EState) (hsteps : Steps s s2) :
    (s2.evidenceStore id).isSealed = true ∧
    (s2.evidenceStore id).status = (s.evidenceStore id).status ∧
    ∀ sender ts st n, updateStatus s2 sender ts id st n =
      (.error "Evidence is sealed", s2) := by
  have hInv := Inv_reachable o s hr
  have hfr := steps_sealed_frozen s s2 hInv id hs hsteps
  have hs2 : (s2.evidenceStore id).isSealed = true := by rw [hfr]; exact hs
  refine ⟨hs2, by rw [hfr], ?_⟩
  intro sender ts st n
  have hInv2 := Inv_steps _ _ hsteps hInv
  have hex : (s2.evidenceStore id).fileHash ≠ "" := hInv2.sealed_nonempty id hs2
  have hlen : ¬ (s2.evidenceStore id).fileHash.length = 0 :=
    fun hc => hex ((length_eq_zero_iff _).mp hc)
  simp [updateStatus, hlen, hs2]

/-- Witness for C1 on the concrete run: after sealing, a later audit
append leaves the flag and status untouched and `updateStatus` is
rejected. -/
theorem c1_sealed_permanent_w :
    (exS3.evidenceStore exId1).isSealed = true ∧
    (exS3.evidenceStore exId1).status = (exS2.evidenceStore exId1).status ∧
    updateStatus exS3 9 13 exId1 EvidenceStatus.Disputed "x" =
      (.error "Evidence is sealed", exS3) := by
  have h := c1_sealed_permanent 7 exS2 exReach2 exId1 rfl exS3
    (Relation.ReflTransGen.tail Relation.ReflTransGen.refl exStep23)
  exact ⟨h.1, h.2.1, h.2.2 9 13 EvidenceStatus.Disputed "x"⟩

/-- C2. Registering a content hash that is already in the hash index
fails with the `AlreadyExists` revert at the contract level (leaving the
state untouched), and the backend upload route answers a duplicate
outcome carrying the id of the pre-existing record; that pre-existing record
indeed stores the queried hash. -/
theorem c2_duplicate_rejected (o : Addr) (s : EState) (hr : Reachable o s)
    (sender : Addr) (ts bn : Nat) (f ih fn ft : String) (sz : Nat)
    (d c : String) (hf : s.hashToId f ≠ Bytes32.zero) (hfn : fn ≠ "") :
    addEvidence s sender ts bn f ih fn ft sz d c =
      (.error "Evidence with this hash already exists", s) ∧
    uploadEvidence s sender ts bn f ih fn ft sz d c =
      (.duplicate (s.hashToId f), s) ∧
    (s.evidenceStore (s.hashToId f)).fileHash = f := by
  have hInv := Inv_reachable o s hr
  have hfne : f ≠ "" := hInv.hash_nonempty f hf
  have hlen : ¬ f.length = 0 := fun hc => hfne ((length_eq_zero_iff f).mp hc)
  have hlenn : ¬ fn.length = 0 := fun hc => hfn ((length_eq_zero_iff fn).mp hc)
  refine ⟨?_, ?_, hInv.hash_points f hf⟩
  · simp [addEvidence, hlen, hlenn, hf]
  · simp [uploadEvidence, verifyEvidence, hf]

/-- Witness for C2: re-registering `"h1"` against the concrete state
that already holds it. -/
theorem c2_duplicate_rejected_w :
    addEvidence exS1 6 20 2 "h1" "" "doc2" "txt" 4 "" "c2" =
      (.error "Evidence with this hash already exists", exS1) ∧
    uploadEvidence exS1 6 20 2 "h1" "" "doc2" "txt" 4 "" "c2" =
      (.duplicate (exS1.hashToId "h1"), exS1) ∧
    (exS1.evidenceStore (exS1.hashToId "h1")).fileHash = "h1" :=
  c2_duplicate_rejected 7 exS1 exReach1 6 20 2 "h1" "" "doc2" "txt" 4 "" "c2"
    (by decide) (by decide)

/-- C10. Hash-index consistency in every reachable state: a mapped
hash points at an existing record whose stored hash is exactly the
queried one, so `getEvidenceByHash` and `verifyEvidence` report that
record. -/
theorem c10_hash_index_consistent (o : Addr) (s : EState) (hr : Reachable o s)
    (f : String) (hf : s.hashToId f ≠ Bytes32.zero) :
    f ≠ "" ∧
    (s.evidenceStore (s.hashToId f)).fileHash = f ∧
    getEvidenceByHash s f = .ok (s.evidenceStore (s.hashToId f)) ∧
    (verifyEvidence s f).isValid = true ∧
    (verifyEvidence s f).evidenceId = s.hashToId f := by
  have hInv := Inv_reachable o s hr
  refine ⟨hInv.hash_nonempty f hf, hInv.hash_points f hf, ?_, ?_, ?_⟩
  · simp [getEvidenceByHash, hf]
  · simp [verifyEvidence, hf]
  · simp [verifyEvidence, hf]

/-- Witness for C10 on the concrete state holding `"h1"`. -/
theorem c10_hash_index_consistent_w :
    "h1" ≠ "" ∧
    (exS1.evidenceStore (exS1.hashToId "h1")).fileHash = "h1" ∧
    getEvidenceByHash exS1 "h1" = .ok (exS1.evidenceStore (exS1.hashToId "h1")) ∧
    (verifyEvidence exS1 "h1").isValid = true ∧
    (verifyEvidence exS1 "h1").evidenceId = exS1.hashToId "h1" :=
  c10_hash_index_consistent 7 exS1 exReach1 "h1" (by decide)

/-- C3. A register call whose preconditions hold creates exactly one
record carrying the supplied fields with `status = Active`,
`sealed = false` and the caller as uploader, touches no other record,
maps the hash to the new id, appends the id to the global and uploader
lists, increments the counter by one, and writes exactly one creation
audit entry, which stays in front of every entry added by any later
successful operation sequence. -/
theorem c3_register_effects (o : Addr) (s : EState) (hr : Reachable o s)
    (sender : Addr) (ts bn : Nat) (f ih fn ft : String) (sz : Nat)
    (d c : String) (hf : f ≠ "") (hfn : fn ≠ "")
    (hdup : s.hashToId f = Bytes32.zero) :
    ∃ id s1, addEvidence s sender ts bn f ih fn ft sz d c = (.ok id, s1) ∧
      id = Bytes32.keccak f sender ts bn ∧
      s1.evidenceStore id =
        { fileHash := f, ipfsHash := ih, fileName := fn, fileType := ft
          fileSize := sz, description := d, caseId := c, timestamp := ts
          uploader := sender, isSealed := false, status := .Active } ∧
      (∀ j, j ≠ id → s1.evidenceStore j = s.evidenceStore j) ∧
      s1.hashToId f = id ∧
      s1.allEvidenceIds = s.allEvidenceIds ++ [id] ∧
      s1.uploaderEvidence sender = s.uploaderEvidence sender ++ [id] ∧
      s1.totalEvidence = s.totalEvidence + 1 ∧
      s1.auditLogs id =
        [{ actor := sender, action := "EVIDENCE_ADDED", timestamp := ts
           notes := "Initial upload" }] ∧
      ∀ s2, Steps s1 s2 → ∃ rest, s2.auditLogs id =
        { actor := sender, action := "EVIDENCE_ADDED", timestamp := ts
          notes := "Initial upload" } :: rest := by
  have hInv := Inv_reachable o s hr
  have hlen : ¬ f.length = 0 := fun hc => hf ((length_eq_zero_iff f).mp hc)
  have hlenn : ¬ fn.length = 0 := fun hc => hfn ((length_eq_zero_iff fn).mp hc)
  have hcall : addEvidence s sender ts bn f ih fn ft sz d c =
      (.ok (Bytes32.keccak f sender ts bn), (addEvidence s sender ts bn f ih fn ft sz d c).2) := by
    simp [addEvidence, hlen, hlenn, hdup]
  refine ⟨Bytes32.keccak f sender ts bn, (addEvidence s sender ts bn f ih fn ft sz d c).2,
    hcall, rfl, ?_, ?_, ?_, ?_, ?_, ?_, ?_, ?_⟩
  · simp [addEvidence, hlen, hlenn, hdup, upd_self]
  · intro j hj
    simp [addEvidence, hlen, hlenn, hdup]
    exact upd_other _ _ _ _ hj
  · simp [addEvidence, hlen, hlenn, hdup, upd_self]
  · simp [addEvidence, hlen, hlenn, hdup]
  · simp [addEvidence, hlen, hlenn, hdup, upd_self]
  · simp [addEvidence, hlen, hlenn, hdup]
  · have hfresh := fresh_audit s hInv f sender ts bn hdup
    simp [addEvidence, hlen, hlenn, hdup, upd_self, hfresh]
  · intro s2 hsteps
    obtain ⟨more, hmore⟩ := steps_audit_grow _ s2 hsteps (Bytes32.keccak f sender ts bn)
    have hone : (addEvidence s sender ts bn f ih fn ft sz d c).2.auditLogs
        (Bytes32.keccak f sender ts bn) =
        [{ actor := sender, action := "EVIDENCE_ADDED", timestamp := ts
           notes := "Initial upload" }] := by
      have hfresh := fresh_audit s hInv f sender ts bn hdup
      simp [addEvidence, hlen, hlenn, hdup, upd_self, hfresh]
    refine ⟨more, ?_⟩
    rw [hmore, hone]
    rfl

/-- Witness for C3: the concrete registration of `"h1"` from the fresh
deployment, followed by the seal step as the later operation sequence. -/
theorem c3_register_effects_w :
    exS1.totalEvidence = 1 ∧
    exS1.hashToId "h1" = exId1 ∧
    exS1.evidenceStore exId1 =
      { fileHash := "h1", ipfsHash := "", fileName := "doc", fileType := "txt"
        fileSize := 3, description := "", caseId := "c1", timestamp := 10
        uploader := 5, isSealed := false, status := .Active } ∧
    exS1.auditLogs exId1 =
      [{ actor := 5, action := "EVIDENCE_ADDED", timestamp := 10
         notes := "Initial upload" }] ∧
    ∃ rest, exS2.auditLogs exId1 =
      { actor := 5, action := "EVIDENCE_ADDED", timestamp := 10
        notes := "Initial upload" } :: rest := by
  obtain ⟨id, s1, hcall, hid, hrec, hfr, hhash, hall, hupl, htot, hlog, hlater⟩ :=
    c3_register_effects 7 exS0 Relation.ReflTransGen.refl 5 10 1 "h1" "" "doc"
      "txt" 3 "" "c1" (by decide) (by decide) rfl
  have hpair : (Except.ok exId1, exS1) = ((Except.ok id : Except String Bytes32), s1) := by
    rw [← hcall]
    rfl
  simp only [Prod.mk.injEq, Except.ok.injEq] at hpair
  obtain ⟨hid1, hs1⟩ := hpair
  subst hid1
  subst hs1
  exact ⟨htot, hhash, hrec, hlog,
    hlater exS2 (Relation.ReflTransGen.tail Relation.ReflTransGen.refl exStep12)⟩

/-- C4. `sealEvidence` succeeds exactly when the record exists, is
not yet sealed, and the caller is the uploader or the owner; on success
it flips the sealed flag and appends exactly one `EVIDENCE_SEALED` audit
entry, and each failure mode reverts with its own error (`NotFound`,
`AlreadySealed`, `Unauthorized`, checked in that order) leaving the
state untouched. -/
theorem c4_seal_spec (s : EState) (sender : Addr) (ts : Nat) (id : Bytes32) :
    ((s.evidenceStore id).fileHash ≠ "" →
      (s.evidenceStore id).isSealed = false →
      (sender = (s.evidenceStore id).uploader ∨ sender = s.owner) →
      sealEvidence s sender ts id = (.ok (), { s with
        evidenceStore := upd s.evidenceStore id
          { s.evidenceStore id with isSealed := true }
        auditLogs := upd s.auditLogs id
          (s.auditLogs id ++
            [{ actor := sender, action := "EVIDENCE_SEALED", timestamp := ts
               notes := "Evidence sealed for integrity" }]) })) ∧
    ((s.evidenceStore id).fileHash = "" →
      sealEvidence s sender ts id = (.error "Evidence not found", s)) ∧
    ((s.evidenceStore id).fileHash ≠ "" →
      (s.evidenceStore id).isSealed = true →
      sealEvidence s sender ts id = (.error "Evidence is sealed", s)) ∧
    ((s.evidenceStore id).fileHash ≠ "" →
      (s.evidenceStore id).isSealed = false →
      ¬(sender = (s.evidenceStore id).uploader ∨ sender = s.owner) →
      sealEvidence s sender ts id = (.error "Not authorized to seal", s)) := by
  refine ⟨?_, ?_, ?_, ?_⟩
  · intro hex hns hauth
    have hlen : ¬ (s.evidenceStore id).fileHash.length = 0 :=
      fun hc => hex ((length_eq_zero_iff _).mp hc)
    simp [sealEvidence, hlen, hns, hauth]
  · intro hemp
    have hlen : (s.evidenceStore id).fileHash.length = 0 :=
      (length_eq_zero_iff _).mpr hemp
    simp [sealEvidence, hlen]
  · intro hex hsl
    have hlen : ¬ (s.evidenceStore id).fileHash.length = 0 :=
      fun hc => hex ((length_eq_zero_iff _).mp hc)
    simp [sealEvidence, hlen, hsl]
  · intro hex hns hauth
    have hlen : ¬ (s.evidenceStore id).fileHash.length = 0 :=
      fun hc => hex ((length_eq_zero_iff _).mp hc)
    simp [sealEvidence, hlen, hns, hauth]

/-- Witness for C4: the seal of `"h1"` by the uploader succeeds, re-sealing
fails as already sealed, a seal attempt by a stranger fails as not
authorized, and sealing an unknown id fails as not found. -/
theorem c4_seal_spec_w :
    sealEvidence exS1 5 11 exId1 = (.ok (), exS2) ∧
    sealEvidence exS2 5 12 exId1 = (.error "Evidence is sealed", exS2) ∧
    sealEvidence exS1 9 11 exId1 = (.error "Not authorized to seal", exS1) ∧
    sealEvidence exS1 5 11 (Bytes32.keccak "h9" 5 10 1) =
      (.error "Evidence not found", exS1) := by
  refine ⟨?_, ?_, ?_, ?_⟩
  · exact (c4_seal_spec exS1 5 11 exId1).1 (by decide) (by decide) (by decide)
  · exact (c4_seal_spec exS2 5 12 exId1).2.2.1 (by decide) (by decide)
  · exact (c4_seal_spec exS1 9 11 exId1).2.2.2 (by decide) (by decide) (by decide)
  · exact (c4_seal_spec exS1 5 11 (Bytes32.keccak "h9" 5 10 1)).2.1 (by decide)

/-- C5. `logAudit` succeeds for every existing record with no sealed
check and no caller check, appending exactly one entry with the given
actor, action and note at the end of the log of that record and leaving the
record store (and everything else but that log) unchanged; it fails only
with `NotFound` when the record does not exist. -/
theorem c5_appendAudit_spec (s : EState) (sender : Addr) (ts : Nat)
    (id : Bytes32) (a n : String) :
    ((s.evidenceStore id).fileHash ≠ "" →
      logAudit s sender ts id a n = (.ok (), { s with
        auditLogs := upd s.auditLogs id
          (s.auditLogs id ++
            [{ actor := sender, action := a, timestamp := ts, notes := n }]) })) ∧
    ((s.evidenceStore id).fileHash = "" →
      logAudit s sender ts id a n = (.error "Evidence not found", s)) := by
  constructor
  · intro hex
    have hlen : ¬ (s.evidenceStore id).fileHash.length = 0 :=
      fun hc => hex ((length_eq_zero_iff _).mp hc)
    simp [logAudit, hlen]
  · intro hemp
    have hlen : (s.evidenceStore id).fileHash.length = 0 :=
      (length_eq_zero_iff _).mpr hemp
    simp [logAudit, hlen]

/-- Witness for C5: a third party appends a note to the already sealed
record and the log grows while the record itself is unchanged; on a
fresh deployment the same call is rejected as not found. -/
theorem c5_appendAudit_spec_w :
    logAudit exS2 9 12 exId1 "NOTE" "reviewed" = (.ok (), exS3) ∧
    (exS2.evidenceStore exId1).isSealed = true ∧
    exS3.evidenceStore exId1 = exS2.evidenceStore exId1 ∧
    exS3.auditLogs exId1 = exS2.auditLogs exId1 ++
      [{ actor := 9, action := "NOTE", timestamp := 12, notes := "reviewed" }] ∧
    logAudit exS0 9 12 exId1 "NOTE" "reviewed" =
      (.error "Evidence not found", exS0) := by
  refine ⟨?_, by decide, by decide, ?_, ?_⟩
  · exact (c5_appendAudit_spec exS2 9 12 exId1 "NOTE" "reviewed").1 (by decide)
  · decide
  · exact (c5_appendAudit_spec exS0 9 12 exId1 "NOTE" "reviewed").2 (by decide)

/-- C6. While a record is unsealed, `updateStatus` by the uploader
or the owner succeeds for every status value (the enum has exactly the
four values, and no transition graph is consulted), overwriting the
status field, appending exactly one `STATUS_UPDATED` entry carrying the
note — and the preconditions still hold afterwards, so the call can be
repeated any number of times with any values. -/
theorem c6_updateStatus_spec (s : EState) (sender : Addr) (ts : Nat)
    (id : Bytes32) (st : EvidenceStatus) (n : String)
    (hex : (s.evidenceStore id).fileHash ≠ "")
    (hns : (s.evidenceStore id).isSealed = false)
    (hauth : sender = (s.evidenceStore id).uploader ∨ sender = s.owner) :
    (st = .Active ∨ st = .UnderReview ∨ st = .Archived ∨ st = .Disputed) ∧
    updateStatus s sender ts id st n = (.ok (), { s with
      evidenceStore := upd s.evidenceStore id
        { s.evidenceStore id with status := st }
      auditLogs := upd s.auditLogs id
        (s.auditLogs id ++
          [{ actor := sender, action := "STATUS_UPDATED", timestamp := ts
             notes := n }]) }) ∧
    ((updateStatus s sender ts id st n).2.evidenceStore id).status = st ∧
    ((updateStatus s sender ts id st n).2.evidenceStore id).fileHash ≠ "" ∧
    ((updateStatus s sender ts id st n).2.evidenceStore id).isSealed = false ∧
    ((updateStatus s sender ts id st n).2.evidenceStore id).uploader =
      (s.evidenceStore id).uploader ∧
    (updateStatus s sender ts id st n).2.owner = s.owner := by
  have hlen : ¬ (s.evidenceStore id).fileHash.length = 0 :=
    fun hc => hex ((length_eq_zero_iff _).mp hc)
  have hcall : updateStatus s sender ts id st n = (.ok (), { s with
      evidenceStore := upd s.evidenceStore id
        { s.evidenceStore id with status := st }
      auditLogs := upd s.auditLogs id
        (s.auditLogs id ++
          [{ actor := sender, action := "STATUS_UPDATED", timestamp := ts
             notes := n }]) }) := by
    simp [updateStatus, hlen, hns, hauth]
  refine ⟨?_, hcall, ?_, ?_, ?_, ?_, ?_⟩
  · cases st
    · exact Or.inl rfl
    · exact Or.inr (Or.inl rfl)
    · exact Or.inr (Or.inr (Or.inl rfl))
    · exact Or.inr (Or.inr (Or.inr rfl))
  · rw [hcall]
    simp [upd_self]
  · rw [hcall]
    simp only [upd_self]
    exact hex
  · rw [hcall]
    simp only [upd_self]
    exact hns
  · rw [hcall]
    simp [upd_self]
  · rw [hcall]

/-- Witness for C6: two consecutive status updates on the unsealed
record, `Disputed` then `Archived`, both by the uploader. -/
theorem c6_updateStatus_spec_w :
    updateStatus exS1 5 12 exId1 EvidenceStatus.Disputed "open dispute" =
      (.ok (), (updateStatus exS1 5 12 exId1 EvidenceStatus.Disputed "open dispute").2) ∧
    ((updateStatus exS1 5 12 exId1 EvidenceStatus.Disputed "open dispute").2.evidenceStore
      exId1).status = EvidenceStatus.Disputed ∧
    updateStatus (updateStatus exS1 5 12 exId1 EvidenceStatus.Disputed "open dispute").2
        5 13 exId1 EvidenceStatus.Archived "resolved" =
      (.ok (), (updateStatus (updateStatus exS1 5 12 exId1 EvidenceStatus.Disputed
        "open dispute").2 5 13 exId1 EvidenceStatus.Archived "resolved").2) ∧
    (((updateStatus (updateStatus exS1 5 12 exId1 EvidenceStatus.Disputed
        "open dispute").2 5 13 exId1 EvidenceStatus.Archived "resolved").2).evidenceStore
      exId1).status = EvidenceStatus.Archived := by
  have h1 := c6_updateStatus_spec exS1 5 12 exId1 EvidenceStatus.Disputed
    "open dispute" (by decide) (by decide) (by decide)
  have h2 := c6_updateStatus_spec
    (updateStatus exS1 5 12 exId1 EvidenceStatus.Disputed "open dispute").2
    5 13 exId1 EvidenceStatus.Archived "resolved" h1.2.2.2.1 h1.2.2.2.2.1
    (by rw [h1.2.2.2.2.2.1]; exact Or.inl (by decide))
  refine ⟨?_, h1.2.2.1, ?_, h2.2.2.1⟩
  · rw [h1.2.1]
  · rw [h2.2.1]

/-- C7. `verifyEvidence` is a pure function of the state (its Lean
type returns no state, mirroring the Solidity `view` function, so it
cannot mutate anything); two calls on the same state give the same
result; an unregistered hash deterministically yields the found=false
tuple as an ordinary result, and a registered hash yields found=true
with the id, uploader and timestamp of the record. -/
theorem c7_verify_pure (s : EState) (f : String) :
    verifyEvidence s f = verifyEvidence s f ∧
    (s.hashToId f = Bytes32.zero → verifyEvidence s f =
      { isValid := false, evidenceId := Bytes32.zero, uploader := 0
        timestamp := 0 }) ∧
    (s.hashToId f ≠ Bytes32.zero → verifyEvidence s f =
      { isValid := true, evidenceId := s.hashToId f
        uploader := (s.evidenceStore (s.hashToId f)).uploader
        timestamp := (s.evidenceStore (s.hashToId f)).timestamp }) := by
  refine ⟨rfl, ?_, ?_⟩
  · intro h
    simp [verifyEvidence, h]
  · intro h
    simp [verifyEvidence, h]

/-- Witness for C7: a never-registered hash on the concrete state is a
clean found=false result, and the registered hash is found. -/
theorem c7_verify_pure_w :
    verifyEvidence exS1 "zzz" =
      { isValid := false, evidenceId := Bytes32.zero, uploader := 0
        timestamp := 0 } ∧
    verifyEvidence exS1 "h1" =
      { isValid := true, evidenceId := exS1.hashToId "h1"
        uploader := (exS1.evidenceStore (exS1.hashToId "h1")).uploader
        timestamp := (exS1.evidenceStore (exS1.hashToId "h1")).timestamp } :=
  ⟨(c7_verify_pure exS1 "zzz").2.1 (by decide),
   (c7_verify_pure exS1 "h1").2.2 (by decide)⟩

/-- C8. The id handed out by `addEvidence` is the keccak digest of
(content hash, caller, block timestamp, block number); two sequential
successful registrations necessarily carry distinct hashes and obtain
distinct ids, each independently retrievable through `getEvidence`; and
two successful calls agreeing on hash, actor and time but with different
block numbers (the monotone counter) obtain distinct ids. -/
theorem c8_id_derivation (s s1 s2 : EState) (sender sender2 : Addr)
    (ts bn ts2 bn2 : Nat) (f1 ih1 fn1 ft1 : String) (sz1 : Nat)
    (d1 c1 : String) (f2 ih2 fn2 ft2 : String) (sz2 : Nat) (d2 c2 : String)
    (id1 id2 : Bytes32)
    (h1 : addEvidence s sender ts bn f1 ih1 fn1 ft1 sz1 d1 c1 = (.ok id1, s1))
    (h2 : addEvidence s1 sender2 ts2 bn2 f2 ih2 fn2 ft2 sz2 d2 c2 = (.ok id2, s2)) :
    id1 = Bytes32.keccak f1 sender ts bn ∧
    id2 = Bytes32.keccak f2 sender2 ts2 bn2 ∧
    f1 ≠ f2 ∧
    id1 ≠ id2 ∧
    getEvidence s2 id1 = .ok (s2.evidenceStore id1) ∧
    (s2.evidenceStore id1).fileHash = f1 ∧
    getEvidence s2 id2 = .ok (s2.evidenceStore id2) ∧
    (s2.evidenceStore id2).fileHash = f2 ∧
    (∀ (u u1 v v1 : EState) (a : Addr) (t b1 b2 : Nat)
       (g gi gn gt : String) (gz : Nat) (gd gc : String) (j1 j2 : Bytes32),
       b1 ≠ b2 →
       addEvidence u a t b1 g gi gn gt gz gd gc = (.ok j1, u1) →
       addEvidence v a t b2 g gi gn gt gz gd gc = (.ok j2, v1) →
       j1 ≠ j2) := by
  obtain ⟨hf1, hfn1, hdup1, hid1, hstore1, hlogs1, hupl1, hhash1, _, _, _⟩ :=
    addEvidence_ok s s1 sender ts bn f1 ih1 fn1 ft1 sz1 d1 c1 id1 h1
  obtain ⟨hf2, hfn2, hdup2, hid2, hstore2, hlogs2, hupl2, hhash2, _, _, _⟩ :=
    addEvidence_ok s1 s2 sender2 ts2 bn2 f2 ih2 fn2 ft2 sz2 d2 c2 id2 h2
  have hne : f1 ≠ f2 := by
    intro hc
    rw [← hc, hhash1, upd_self, hid1] at hdup2
    exact Bytes32.noConfusion hdup2
  have hidne : id1 ≠ id2 := by
    rw [hid1, hid2]
    intro hc
    injection hc with hfa _ _ _
    exact hne hfa
  have hrec1 : s2.evidenceStore id1 = s1.evidenceStore id1 := by
    rw [hstore2]
    exact upd_other _ _ _ _ hidne
  have hfile1 : (s2.evidenceStore id1).fileHash = f1 := by
    rw [hrec1, hstore1, upd_self]
  have hfile2 : (s2.evidenceStore id2).fileHash = f2 := by
    rw [hstore2, upd_self]
  refine ⟨hid1, hid2, hne, hidne, ?_, hfile1, ?_, hfile2, ?_⟩
  · have hl : ¬ (s2.evidenceStore id1).fileHash.length = 0 := by
      rw [hfile1]
      exact fun hc => hf1 ((length_eq_zero_iff f1).mp hc)
    simp [getEvidence, hl]
  · have hl : ¬ (s2.evidenceStore id2).fileHash.length = 0 := by
      rw [hfile2]
      exact fun hc => hf2 ((length_eq_zero_iff f2).mp hc)
    simp [getEvidence, hl]
  · intro u u1 v v1 a t b1 b2 g gi gn gt gz gd gc j1 j2 hbne hu hv
    obtain ⟨_, _, _, hj1, _⟩ :=
      addEvidence_ok u u1 a t b1 g gi gn gt gz gd gc j1 hu
    obtain ⟨_, _, _, hj2, _⟩ :=
      addEvidence_ok v v1 a t b2 g gi gn gt gz gd gc j2 hv
    rw [hj1, hj2]
    intro hc
    injection hc with _ _ _ hb
    exact hbne hb

/-- Witness for C8: the concrete run registers `"h1"` and then `"h2"`;
the two ids differ and both records remain retrievable. -/
theorem c8_id_derivation_w :
    exId1 = Bytes32.keccak "h1" 5 10 1 ∧
    Bytes32.keccak "h2" 6 20 2 = Bytes32.keccak "h2" 6 20 2 ∧
    exId1 ≠ Bytes32.keccak "h2" 6 20 2 ∧
    ((addEvidence exS1 6 20 2 "h2" "" "doc2" "txt" 4 "" "c2").2.evidenceStore
      exId1).fileHash = "h1" ∧
    ((addEvidence exS1 6 20 2 "h2" "" "doc2" "txt" 4 "" "c2").2.evidenceStore
      (Bytes32.keccak "h2" 6 20 2)).fileHash = "h2" := by
  have h := c8_id_derivation exS0 exS1
    (addEvidence exS1 6 20 2 "h2" "" "doc2" "txt" 4 "" "c2").2 5 6 10 1 20 2
    "h1" "" "doc" "txt" 3 "" "c1" "h2" "" "doc2" "txt" 4 "" "c2"
    exId1 (Bytes32.keccak "h2" 6 20 2) rfl rfl
  exact ⟨h.1, rfl, h.2.2.2.1, h.2.2.2.2.2.1, h.2.2.2.2.2.2.2.1⟩

/-- C9. Every mutating operation is atomic: whenever it reports an
error, the state it returns is exactly the input state — every
`require` of the source precedes every write, and the error is an
ordinary return value rather than a crash of the registry. -/
theorem c9_revert_on_failure (s : EState) (sender : Addr) (ts bn : Nat)
    (f ih fn ft : String) (sz : Nat) (d c : String) (id : Bytes32)
    (st : EvidenceStatus) (a n : String) :
    (∀ e, (addEvidence s sender ts bn f ih fn ft sz d c).1 = .error e →
      (addEvidence s sender ts bn f ih fn ft sz d c).2 = s) ∧
    (∀ e, (sealEvidence s sender ts id).1 = .error e →
      (sealEvidence s sender ts id).2 = s) ∧
    (∀ e, (updateStatus s sender ts id st n).1 = .error e →
      (updateStatus s sender ts id st n).2 = s) ∧
    (∀ e, (logAudit s sender ts id a n).1 = .error e →
      (logAudit s sender ts id a n).2 = s) := by
  refine ⟨?_, ?_, ?_, ?_⟩
  · intro e h
    by_cases hc1 : f.length = 0
    · simp [addEvidence, hc1]
    · by_cases hc2 : fn.length = 0
      · simp [addEvidence, hc1, hc2]
      · by_cases hc3 : s.hashToId f = Bytes32.zero
        · exfalso
          simp [addEvidence, hc1, hc2, hc3] at h
        · simp [addEvidence, hc1, hc2, hc3]
  · intro e h
    by_cases hc1 : (s.evidenceStore id).fileHash.length = 0
    · simp [sealEvidence, hc1]
    · by_cases hc2 : (s.evidenceStore id).isSealed
      · simp [sealEvidence, hc1, hc2]
      · by_cases hc3 : sender = (s.evidenceStore id).uploader ∨ sender = s.owner
        · exfalso
          simp [sealEvidence, hc1, hc2, hc3] at h
        · simp [sealEvidence, hc1, hc2, hc3]
  · intro e h
    by_cases hc1 : (s.evidenceStore id).fileHash.length = 0
    · simp [updateStatus, hc1]
    · by_cases hc2 : (s.evidenceStore id).isSealed
      · simp [updateStatus, hc1, hc2]
      · by_cases hc3 : sender = (s.evidenceStore id).uploader ∨ sender = s.owner
        · exfalso
          simp [updateStatus, hc1, hc2, hc3] at h
        · simp [updateStatus, hc1, hc2, hc3]
  · intro e h
    by_cases hc1 : (s.evidenceStore id).fileHash.length = 0
    · simp [logAudit, hc1]
    · exfalso
      simp [logAudit, hc1] at h

/-- Witness for C9: four concrete failing calls, one per operation, each
leaving its input state intact. -/
theorem c9_revert_on_failure_w :
    (addEvidence exS0 5 1 1 "" "" "n" "t" 0 "" "").2 = exS0 ∧
    (sealEvidence exS0 5 1 exId1).2 = exS0 ∧
    (updateStatus exS2 5 1 exId1 EvidenceStatus.Archived "x").2 = exS2 ∧
    (logAudit exS0 5 1 exId1 "A" "b").2 = exS0 :=
  ⟨(c9_revert_on_failure exS0 5 1 1 "" "" "n" "t" 0 "" "" exId1 .Archived "A" "b").1
      "File hash required" rfl,
   (c9_revert_on_failure exS0 5 1 1 "" "" "n" "t" 0 "" "" exId1 .Archived "A" "b").2.1
      "Evidence not found" rfl,
   (c9_revert_on_failure exS2 5 1 1 "" "" "n" "t" 0 "" "" exId1 .Archived "A" "b").2.2.1
      "Evidence is sealed" rfl,
   (c9_revert_on_failure exS0 5 1 1 "" "" "n" "t" 0 "" "" exId1 .Archived "A" "b").2.2.2
      "Evidence not found" rfl⟩

end EvidenceChain
